import Mathlib

/-!
Verification of the snapshot/offset reconciliation and AST-staleness
negotiation subsystem of `tools/SourceKit/lib/SwiftLang/SwiftSourceDocInfo.cpp`.

The C++ functions are shallowly embedded as pure Lean functions:

* `Edit` models one `ReplaceImmutableTextUpdate` (byte offset, removed
  length, inserted text).  The inserted length (`getText().size()` in the
  source) is modelled as `text.length`; all examples use ASCII text, where
  the byte count and the character count coincide.
* `mapOffsetToNewerSnapshot` / `mapOffsetToOlderSnapshot` embed the two
  offset-remap functions.  Offsets are `Nat`; the source uses `unsigned`
  arithmetic, but on every path on which the source subtracts, the guard
  conditions already imply the subtraction does not borrow, so `Nat`
  truncated subtraction agrees with the source exactly.
* The staleness negotiation (`canUseASTWithSnapshots`), the declaration
  location remap (`tryRemappingLocToLatestSnapshot`), the response assembly
  (`passCursorInfoForDecl`), the cursor pipeline (`resolveCursor`) and the
  related-identifier entry checks (`findRelatedIdents`) are embedded with
  the external collaborators (lexical token peek, semantic resolver, AST
  walker) passed in as function parameters.
-/

namespace SwiftSourceDocInfo

/-- One text replacement between two consecutive snapshots
(`ReplaceImmutableTextUpdate`): starting byte offset (`getByteOffset`),
length of removed text (`getLength`), and the inserted text (`getText`). -/
structure Edit where
  byteOffset : Nat
  length : Nat
  text : String
deriving DecidableEq, Repr

/-- Embedding of `mapOffsetToNewerSnapshot` (forward remap, older → newer):
replay the updates in chain order; an offset inside an update's removed span
`[byteOffset, byteOffset + length)` fails ("offset is part of removed
text"); an update at or before the offset shifts it by
`insertedLen - removedLen`. -/
def mapOffsetToNewerSnapshot (off : Nat) : List Edit → Option Nat
  | [] => some off
  | u :: us =>
    if u.byteOffset ≤ off ∧ off < u.byteOffset + u.length then
      none
    else if u.byteOffset ≤ off then
      mapOffsetToNewerSnapshot (off + u.text.length - u.length) us
    else
      mapOffsetToNewerSnapshot off us

/-- One step of `mapOffsetToOlderSnapshot`'s reverse walk: "undo" a single
update.  An offset inside the update's inserted span
`[byteOffset, byteOffset + text.length)` fails ("offset is part of newly
inserted text"); an update at or before the offset shifts it by
`removedLen - insertedLen` ("bring back" what was removed, "remove" what was
added). -/
def undoReplace (u : Edit) (off : Nat) : Option Nat :=
  if u.byteOffset ≤ off ∧ off < u.byteOffset + u.text.length then
    none
  else if u.byteOffset ≤ off then
    some (off + u.length - u.text.length)
  else
    some off

/-- Embedding of `mapOffsetToOlderSnapshot` (backward remap, newer → older):
collect the updates of the chain and walk them backwards, undoing each one
(`undoReplace`).  The updates are given in chain order; the recursion undoes
the tail (the later updates) first, matching the reverse iteration of the
source. -/
def mapOffsetToOlderSnapshot (off : Nat) : List Edit → Option Nat
  | [] => some off
  | u :: us => (mapOffsetToOlderSnapshot off us).bind (undoReplace u)

/-- The forward-remap replay, written following the spec's §4.2 wording, for
comparison with `mapOffsetToNewerSnapshot`: fail when an edit's removed span
`[start, start + removedLen)` contains the current offset; for an edit
entirely at or before the offset (`start + removedLen ≤ offset`) adjust by
`insertedLen - removedLen` (exact integer arithmetic here, since the branch
guarantees `removedLen ≤ offset`). -/
def forwardRemapSpec (off : Nat) : List Edit → Option Nat
  | [] => some off
  | u :: us =>
    if u.byteOffset ≤ off ∧ off < u.byteOffset + u.length then
      none
    else if u.byteOffset + u.length ≤ off then
      forwardRemapSpec (off + u.text.length - u.length) us
    else
      forwardRemapSpec off us

/-- Replay predicate: `true` iff, replaying the chain forward from `off`,
the current offset is never inside a replayed edit's removed span — i.e. the
offset never lands in text that the chain removed. -/
def notInsideAnyRemovedSpan (off : Nat) : List Edit → Bool
  | [] => true
  | u :: us =>
    if u.byteOffset ≤ off ∧ off < u.byteOffset + u.length then
      false
    else if u.byteOffset ≤ off then
      notInsideAnyRemovedSpan (off + u.text.length - u.length) us
    else
      notInsideAnyRemovedSpan off us

/-- An immutable text snapshot, reduced to the two attributes the staleness
and remap logic reads: the owning buffer identity (`isFromSameBuffer`
compares it) and the monotonically increasing stamp (`getStamp`). -/
structure SnapInfo where
  buffer : Nat
  stamp : Nat
deriving DecidableEq

/-- The `mappedBackOffset` closure inside
`CursorInfoConsumer::canUseASTWithSnapshots`: scan the analysis's snapshots
for the first one from the same buffer as the latest snapshot; equal stamps
accept the offset unchanged; otherwise backward-remap the offset and accept
only if the lexical token text at the new offset in the latest snapshot is
nonempty and identical to the token text at the remapped offset in the
candidate snapshot.  `editsFrom s` is the edit chain from `s` to the latest
snapshot (`foreachReplaceUntil`), and `tokenAt` is the external lexical peek
(`getSourceToken`). -/
def mappedBackOffset (off : Nat) (inputSnap : SnapInfo)
    (editsFrom : SnapInfo → List Edit) (tokenAt : SnapInfo → Nat → String) :
    List SnapInfo → Option Nat
  | [] => none
  | s :: rest =>
    if s.buffer = inputSnap.buffer then
      if s.stamp = inputSnap.stamp then
        some off
      else
        match mapOffsetToOlderSnapshot off (editsFrom s) with
        | none => none
        | some oldOff =>
          if tokenAt inputSnap off = "" then none
          else if tokenAt inputSnap off = tokenAt s oldOff then some oldOff
          else none
    else
      mappedBackOffset off inputSnap editsFrom tokenAt rest

/-- Embedding of `CursorInfoConsumer::canUseASTWithSnapshots`: reuse is
rejected outright when `tryExistingAST` is off or the file has no latest
snapshot; otherwise the decision is `mappedBackOffset`'s.  The result
carries the acceptance flag, the (possibly remapped) query offset, and the
`PreviousASTSnaps` list recorded on acceptance. -/
def canUseASTWithSnapshots (tryExistingAST : Bool) (off : Nat)
    (inputSnap : Option SnapInfo) (snapshots : List SnapInfo)
    (editsFrom : SnapInfo → List Edit) (tokenAt : SnapInfo → Nat → String) :
    Bool × Nat × List SnapInfo :=
  if !tryExistingAST then
    (false, off, [])
  else
    match inputSnap with
    | none => (false, off, [])
    | some isnap =>
      match mappedBackOffset off isnap editsFrom tokenAt snapshots with
      | some o' => (true, o', snapshots)
      | none => (false, off, [])

/-- The loop of `tryRemappingLocToLatestSnapshot` over `PreviousASTSnaps`:
at the first snapshot from the same buffer as the latest snapshot, return
the range unchanged if the stamps are equal, and otherwise forward-remap
both ends of the range, failing if either end fails; if no snapshot is from
the same buffer, return the range unchanged. -/
def remapRangeOverPrevSnaps (latest : SnapInfo) (range : Nat × Nat)
    (editsToLatest : SnapInfo → List Edit) : List SnapInfo → Option (Nat × Nat)
  | [] => some range
  | s :: rest =>
    if s.buffer = latest.buffer then
      if s.stamp = latest.stamp then
        some range
      else
        match mapOffsetToNewerSnapshot range.1 (editsToLatest s),
            mapOffsetToNewerSnapshot (range.1 + range.2) (editsToLatest s) with
        | some b, some e => some (b, e - b)
        | _, _ => none
    else
      remapRangeOverPrevSnaps latest range editsToLatest rest

/-- Embedding of `tryRemappingLocToLatestSnapshot`: when the declaration's
file has no open editor document with a latest snapshot, the (offset,
length) range is returned unchanged; otherwise the `PreviousASTSnaps` loop
decides.  `editsToLatest s` is the edit chain from `s` to the latest
snapshot. -/
def tryRemappingLocToLatestSnapshot (latestSnap : Option SnapInfo)
    (range : Nat × Nat) (prevSnaps : List SnapInfo)
    (editsToLatest : SnapInfo → List Edit) : Option (Nat × Nat) :=
  match latestSnap with
  | none => some range
  | some latest => remapRangeOverPrevSnaps latest range editsToLatest prevSnaps

/-- The inputs of `passCursorInfoForDecl` that its control flow reads: the
declaration's unavailability attribute (`AvailableAttr::isUnavailable`), its
source location from `getLocationInfo`, the latest snapshot of the
declaration's file, and the edit chains from previous snapshots to that
latest snapshot.  The rendered strings of the response (name, USR, type,
documentation, annotated declarations, related declarations) are opaque
formatting and do not influence the decision logic. -/
structure DeclInput where
  unavailable : Bool
  declLoc : Option (Nat × Nat)
  latestSnap : Option SnapInfo
  editsToLatest : SnapInfo → List Edit

/-- Embedding of the decision logic of `passCursorInfoForDecl`.  `none`
models "returns true for failure" with the receiver never invoked; `some
loc` models a delivered response whose `DeclarationLoc` is `loc`.  An
unavailable declaration fails immediately; a declaration location that
cannot be remapped to the latest snapshot fails ("failed to remap") with no
partially remapped response. -/
def passCursorInfoForDecl (d : DeclInput) (prevSnaps : List SnapInfo) :
    Option (Option (Nat × Nat)) :=
  if d.unavailable then
    none
  else
    match d.declLoc with
    | none => some none
    | some range =>
      match tryRemappingLocToLatestSnapshot d.latestSnap range prevSnaps
          d.editsToLatest with
      | none => none
      | some r => some (some r)

/-- What resolving the query offset against an AST produces, as read by
`CursorInfoConsumer::handlePrimaryAST`: an invalid start-of-token location
(`Lexer::getLocForStartOfToken`), an invalid semantic token
(`SemaToken::isInvalid`), a module reference, or a declaration with the
attributes `passCursorInfoForDecl` reads. -/
inductive SemaResult where
  | invalidLoc : SemaResult
  | invalidTok : SemaResult
  | moduleRef : SemaResult
  | declTok : DeclInput → SemaResult

/-- The environment of one cursor-info query: the latest snapshot of the
query's file, the snapshot list offered with an existing AST, the edit
chains and lexical peek used by negotiation, and the semantic resolver
(a function of the query offset). -/
structure PipelineEnv where
  inputSnap : Option SnapInfo
  snapshots : List SnapInfo
  editsFrom : SnapInfo → List Edit
  tokenAt : SnapInfo → Nat → String
  sema : Nat → SemaResult

/-- A terminal cursor-info delivery: the empty result, a module response, or
a declaration response carrying its (possibly remapped) location. -/
inductive Outcome where
  | empty : Outcome
  | moduleResp : Outcome
  | declResp : Option (Nat × Nat) → Outcome
deriving DecidableEq

/-- Embedding of `CursorInfoConsumer::handlePrimaryAST` for one AST
delivery: an invalid location or invalid semantic token delivers the empty
result; a module token delivers a module response; a declaration token
delivers a declaration response unless `passCursorInfoForDecl` fails, in
which case nothing is delivered from this attempt (`none`) and the caller
decides between retry and empty. -/
def handlePrimaryAST (env : PipelineEnv) (off : Nat)
    (prevSnaps : List SnapInfo) : Option Outcome :=
  match env.sema off with
  | .invalidLoc => some .empty
  | .invalidTok => some .empty
  | .moduleRef => some .moduleResp
  | .declTok d =>
    match passCursorInfoForDecl d prevSnaps with
    | some loc => some (.declResp loc)
    | none => none

/-- The observable run of one cursor-info query: the delivered outcome, how
many AST deliveries (pipeline rounds) occurred, and how many of those rounds
used a freshly built AST rather than reusing an existing one. -/
structure RunStats where
  outcome : Outcome
  rounds : Nat
  freshBuilds : Nat
deriving DecidableEq

/-- `resolveCursor` with `TryExistingAST = false`: negotiation rejects
immediately, so the AST is freshly built and `PreviousASTSnaps` is empty;
if assembly fails, the empty-`PreviousASTSnaps` branch delivers the empty
result — no further retry is possible. -/
def resolveCursorFresh (env : PipelineEnv) (off : Nat) : RunStats :=
  match handlePrimaryAST env off [] with
  | some out => ⟨out, 1, 1⟩
  | none => ⟨.empty, 1, 1⟩

/-- Embedding of `resolveCursor`: with `TryExistingAST = true`, negotiation
(`canUseASTWithSnapshots`) may accept an existing AST (recording
`PreviousASTSnaps` and possibly remapping the offset to the accepted
snapshot) or reject it (forcing a fresh build).  If `handlePrimaryAST` fails
to assemble and `PreviousASTSnaps` is nonempty, the whole pipeline re-runs
with `TryExistingAST = false` at the consumer's current (possibly remapped)
offset; if it fails with `PreviousASTSnaps` empty, the empty result is
delivered. -/
def resolveCursor (env : PipelineEnv) (off : Nat) : Bool → RunStats
  | false => resolveCursorFresh env off
  | true =>
    let c := canUseASTWithSnapshots true off env.inputSnap env.snapshots
      env.editsFrom env.tokenAt
    let fresh := if c.1 then 0 else 1
    match handlePrimaryAST env c.2.1 c.2.2 with
    | some out => ⟨out, 1, fresh⟩
    | none =>
      if c.2.2.isEmpty then
        ⟨.empty, 1, fresh⟩
      else
        let r := resolveCursorFresh env c.2.1
        ⟨r.outcome, 1 + r.rounds, fresh + r.freshBuilds⟩

/-- The declaration kinds that `RelatedIdConsumer::handlePrimaryAST`
distinguishes: constructors, destructors, subscripts, and everything
else. -/
inductive DeclKind where
  | ctor : DeclKind
  | dtor : DeclKind
  | subscriptDecl : DeclKind
  | otherDecl : DeclKind
deriving DecidableEq

/-- The attributes of a resolved value declaration read by the
related-identifier entry checks: its kind, whether its name is an operator
(`getName().isOperator()`), and whether its declaration context is local
(`getDeclContext()->getLocalContext()` nonnull). -/
structure RelDecl where
  kind : DeclKind
  nameIsOperator : Bool
  isLocal : Bool
deriving DecidableEq

/-- A resolved semantic token as read by the related-identifier query:
validity, whether the offset was inside a keyword-argument label, whether
the offset denotes a reference, the resolved value declaration, and the
constructor's type reference if the token was a constructor reference. -/
structure SemaTokModel where
  isInvalid : Bool
  isKeywordArgument : Bool
  isRef : Bool
  valueD : Option RelDecl
  ctorTyRef : Option RelDecl
deriving DecidableEq

/-- `VD = SemaTok.CtorTyRef ? SemaTok.CtorTyRef : SemaTok.ValueD`: the
target declaration of a related-identifier query, `none` when the token was
a module reference. -/
def semaTokTargetDecl (t : SemaTokModel) : Option RelDecl :=
  match t.ctorTyRef with
  | some d => some d
  | none => t.valueD

/-- Embedding of the `Action` body of `RelatedIdConsumer::handlePrimaryAST`:
every early `return` leaves the occurrence list empty; otherwise the scanner
walks the innermost local context when the declaration is local and the
whole source file otherwise.  `walkLocalRanges` and `walkFileRanges` are the
occurrence lists the `RelatedIdScanner` walk would collect over those two
scopes. -/
def findRelatedIdents (locValid : Bool) (tok : SemaTokModel)
    (walkLocalRanges walkFileRanges : List (Nat × Nat)) :
    List (Nat × Nat) :=
  if !locValid then []
  else if tok.isInvalid then []
  else if tok.isKeywordArgument then []
  else
    match semaTokTargetDecl tok with
    | none => []
    | some vd =>
      if tok.isRef = false ∧ (vd.kind = .ctor ∨ vd.kind = .dtor ∨
          vd.kind = .subscriptDecl) then []
      else if vd.nameIsOperator then []
      else if vd.isLocal then walkLocalRanges
      else walkFileRanges

/-- A sample edit-chain assignment with no edits between any snapshot and
the latest one. -/
def noEdits : SnapInfo → List Edit := fun _ => []

/-- A sample edit-chain assignment: every previous snapshot reaches the
latest one through a single edit removing five bytes at offset 0. -/
def removeFiveAtZero : SnapInfo → List Edit := fun _ => [⟨0, 5, ""⟩]

/-- A sample environment in which negotiation accepts a stale analysis (the
offered snapshot equals the latest snapshot) while the query resolves to an
unavailable declaration, so assembly fails on every attempt. -/
def staleUnavailableEnv : PipelineEnv where
  inputSnap := some ⟨0, 2⟩
  snapshots := [⟨0, 2⟩]
  editsFrom := fun _ => []
  tokenAt := fun _ _ => "tok"
  sema := fun _ => .declTok ⟨true, none, none, fun _ => []⟩

/-- A sample environment in which no existing analysis is offered (empty
snapshot list), so negotiation rejects, while the query resolves to an
unavailable declaration. -/
def freshRejectEnv : PipelineEnv where
  inputSnap := some ⟨0, 2⟩
  snapshots := []
  editsFrom := fun _ => []
  tokenAt := fun _ _ => "tok"
  sema := fun _ => .declTok ⟨true, none, none, fun _ => []⟩

theorem mapNewer_append (o : Nat) (xs ys : List Edit) :
    mapOffsetToNewerSnapshot o (xs ++ ys) =
      (mapOffsetToNewerSnapshot o xs).bind
        (fun o' => mapOffsetToNewerSnapshot o' ys) := by
  induction xs generalizing o with
  | nil => simp [mapOffsetToNewerSnapshot]
  | cons u us ih =>
    by_cases h1 : u.byteOffset ≤ o ∧ o < u.byteOffset + u.length
    · simp [mapOffsetToNewerSnapshot, h1]
    · by_cases h2 : u.byteOffset ≤ o
      · have h3 : ¬ o < u.byteOffset + u.length := by omega
        simp [mapOffsetToNewerSnapshot, h1, h2, h3, ih]
      · simp [mapOffsetToNewerSnapshot, h1, h2, ih]

theorem mapOlder_append (o : Nat) (xs ys : List Edit) :
    mapOffsetToOlderSnapshot o (xs ++ ys) =
      (mapOffsetToOlderSnapshot o ys).bind
        (fun o' => mapOffsetToOlderSnapshot o' xs) := by
  induction xs with
  | nil => simp [mapOffsetToOlderSnapshot]
  | cons u us ih =>
    show (mapOffsetToOlderSnapshot o (us ++ ys)).bind (undoReplace u) =
      (mapOffsetToOlderSnapshot o ys).bind
        (fun o' => mapOffsetToOlderSnapshot o' (u :: us))
    rw [ih, Option.bind_assoc]
    simp only [mapOffsetToOlderSnapshot]

theorem mapNewer_eq_forwardRemapSpec (o : Nat) (es : List Edit) :
    mapOffsetToNewerSnapshot o es = forwardRemapSpec o es := by
  induction es generalizing o with
  | nil => rfl
  | cons u us ih =>
    simp only [mapOffsetToNewerSnapshot, forwardRemapSpec]
    split_ifs with h1 h2 h3 h4
    · rfl
    · exact ih _
    · omega
    · omega
    · exact ih _

theorem mapNewer_eq_none_iff (o : Nat) (es : List Edit) :
    mapOffsetToNewerSnapshot o es = none ↔ notInsideAnyRemovedSpan o es = false := by
  induction es generalizing o with
  | nil => simp [mapOffsetToNewerSnapshot, notInsideAnyRemovedSpan]
  | cons u us ih =>
    by_cases h1 : u.byteOffset ≤ o ∧ o < u.byteOffset + u.length
    · simp [mapOffsetToNewerSnapshot, notInsideAnyRemovedSpan, h1]
    · by_cases h2 : u.byteOffset ≤ o
      · simp [mapOffsetToNewerSnapshot, notInsideAnyRemovedSpan, h1, h2, ih]
      · simp [mapOffsetToNewerSnapshot, notInsideAnyRemovedSpan, h1, h2, ih]

theorem mapOlder_of_mapNewer (o o' : Nat) (es : List Edit)
    (h : mapOffsetToNewerSnapshot o es = some o') :
    mapOffsetToOlderSnapshot o' es = some o := by
  induction es generalizing o with
  | nil =>
    simp only [mapOffsetToNewerSnapshot, Option.some.injEq] at h
    simp [mapOffsetToOlderSnapshot, h]
  | cons u us ih =>
    simp only [mapOffsetToNewerSnapshot] at h
    by_cases h1 : u.byteOffset ≤ o ∧ o < u.byteOffset + u.length
    · rw [if_pos h1] at h
      exact absurd h (by simp)
    · rw [if_neg h1] at h
      by_cases h2 : u.byteOffset ≤ o
      · rw [if_pos h2] at h
        have hrec := ih _ h
        simp only [mapOffsetToOlderSnapshot, hrec, Option.some_bind]
        unfold undoReplace
        rw [if_neg (by omega), if_pos (by omega)]
        congr 1
        omega
      · rw [if_neg h2] at h
        have hrec := ih _ h
        simp only [mapOffsetToOlderSnapshot, hrec, Option.some_bind]
        unfold undoReplace
        rw [if_neg (by omega), if_neg (by omega)]

/-- Claim C1 counterexample: the claim fails on the code.  Forward remap of the
offset 0, exactly at the start of an edit that removes one byte at offset 0,
fails with "offset is part of removed text" (the containment test is
`byteOffset ≤ Offset && Offset < byteOffset + length`, which holds at the
start); symmetrically, backward remap of offset 0, exactly at the start of
an edit inserting one byte at offset 0, fails with "offset is part of newly
inserted text". -/
theorem c1_counterexample :
    mapOffsetToNewerSnapshot 0 [⟨0, 1, ""⟩] = none ∧
    mapOffsetToOlderSnapshot 0 [⟨0, 0, "x"⟩] = none := by
  decide

/-- Claim C1 (amended): an offset exactly equal to an edit record's start byte
offset is treated as INSIDE that edit's replaced/inserted span: whenever the
forward replay reaches an edit with nonzero removed length while the current
offset equals that edit's start, the forward remap fails with "offset
removed"; and whenever the backward replay reaches an edit with nonzero
inserted length while the current offset equals that edit's start, the
backward remap fails with "offset inserted". -/
theorem c1_amended_start_offset_is_inside (u : Edit) (o : Nat)
    (pre post : List Edit) :
    (mapOffsetToNewerSnapshot o pre = some u.byteOffset → 0 < u.length →
      mapOffsetToNewerSnapshot o (pre ++ u :: post) = none) ∧
    (mapOffsetToOlderSnapshot o post = some u.byteOffset → 0 < u.text.length →
      mapOffsetToOlderSnapshot o (pre ++ u :: post) = none) := by
  constructor
  · intro h hl
    rw [mapNewer_append, h, Option.some_bind]
    unfold mapOffsetToNewerSnapshot
    rw [if_pos ⟨Nat.le_refl _, by omega⟩]
  · intro h ht
    rw [mapOlder_append]
    have hu : mapOffsetToOlderSnapshot o (u :: post) = none := by
      simp only [mapOffsetToOlderSnapshot, h, Option.some_bind]
      unfold undoReplace
      rw [if_pos ⟨Nat.le_refl _, by omega⟩]
    rw [hu, Option.none_bind]

/-- Witness for C1 (amended) at concrete inputs: a chain `[insert "a" at 0,
remove 2 bytes at 3]` replayed forward from offset 2 reaches offset 3 — the
second edit's start — and fails; a chain `[remove 1 at 9, insert "y" at 1,
insert "a" at 0]` replayed backward from offset 2 reaches offset 1 — the
middle edit's start — and fails. -/
theorem c1_amended_witness :
    mapOffsetToNewerSnapshot 2 [⟨0, 0, "a"⟩, ⟨3, 2, "z"⟩] = none ∧
    mapOffsetToOlderSnapshot 2 [⟨9, 1, "q"⟩, ⟨1, 0, "y"⟩, ⟨0, 0, "a"⟩] = none := by
  constructor
  · exact (c1_amended_start_offset_is_inside ⟨3, 2, "z"⟩ 2 [⟨0, 0, "a"⟩] []).1
      (by decide) (by decide)
  · exact (c1_amended_start_offset_is_inside ⟨1, 0, "y"⟩ 2 [⟨9, 1, "q"⟩]
      [⟨0, 0, "a"⟩]).2 (by decide) (by decide)

/-- Claim C2 counterexample: for the single edit (offset 5, removed 0, inserted
"y"), the claim's asserted values fail on the code: forward remap of 5
yields 6 (not 5), and backward remap of 6 succeeds with 5 (instead of
failing). -/
theorem c2_counterexample :
    ¬(mapOffsetToNewerSnapshot 5 [⟨5, 0, "y"⟩] = some 5 ∧
      mapOffsetToOlderSnapshot 7 [⟨5, 0, "y"⟩] = some 6 ∧
      mapOffsetToOlderSnapshot 6 [⟨5, 0, "y"⟩] = none) := by
  decide

/-- Claim C2 (amended): for the single edit record (byte offset 5, removed length
0, inserted text "y") taking "let x = 1" to "let xy = 1": forward-remapping
offset 5 succeeds and yields offset 6; backward-remapping offset 7 succeeds
and yields offset 6; backward-remapping offset 6 succeeds and yields offset
5; and it is backward-remapping offset 5 that fails (offset inside the
inserted "y", which occupies [5, 6)). -/
theorem c2_amended_scenario :
    mapOffsetToNewerSnapshot 5 [⟨5, 0, "y"⟩] = some 6 ∧
    mapOffsetToOlderSnapshot 7 [⟨5, 0, "y"⟩] = some 6 ∧
    mapOffsetToOlderSnapshot 6 [⟨5, 0, "y"⟩] = some 5 ∧
    mapOffsetToOlderSnapshot 5 [⟨5, 0, "y"⟩] = none := by
  decide

/-- Claim C3: forward remap replays the edit records in chain order, failing
exactly when some replayed edit's removed span `[start, start + removedLen)`
contains the current offset (`notInsideAnyRemovedSpan` is the replay of that
containment test), adjusting by `insertedLen - removedLen` for every edit
entirely at or before the offset, and succeeding with the final adjusted
offset otherwise — i.e. the code (`mapOffsetToNewerSnapshot`) coincides with
the spec's replay (`forwardRemapSpec`). -/
theorem c3_forward_remap_characterization (o : Nat) (es : List Edit) :
    mapOffsetToNewerSnapshot o es = forwardRemapSpec o es ∧
    (mapOffsetToNewerSnapshot o es = none ↔
      notInsideAnyRemovedSpan o es = false) :=
  ⟨mapNewer_eq_forwardRemapSpec o es, mapNewer_eq_none_iff o es⟩

/-- Witness for C3 at a concrete input. -/
theorem c3_witness :
    mapOffsetToNewerSnapshot 5 [⟨5, 0, "y"⟩] = forwardRemapSpec 5 [⟨5, 0, "y"⟩] ∧
    (mapOffsetToNewerSnapshot 5 [⟨5, 0, "y"⟩] = none ↔
      notInsideAnyRemovedSpan 5 [⟨5, 0, "y"⟩] = false) :=
  c3_forward_remap_characterization 5 [⟨5, 0, "y"⟩]

/-- Claim C4: for every edit chain and every offset whose forward replay never
lands inside a removed span, the forward remap succeeds, and backward
remapping the result returns the original offset
(`backward(forward(O)) = O`). -/
theorem c4_remap_round_trip (o : Nat) (es : List Edit)
    (h : notInsideAnyRemovedSpan o es = true) :
    ∃ o', mapOffsetToNewerSnapshot o es = some o' ∧
      mapOffsetToOlderSnapshot o' es = some o := by
  have hne : mapOffsetToNewerSnapshot o es ≠ none := by
    intro hn
    rw [mapNewer_eq_none_iff] at hn
    rw [h] at hn
    exact absurd hn (by decide)
  obtain ⟨o', ho'⟩ := Option.ne_none_iff_exists'.mp hne
  exact ⟨o', ho', mapOlder_of_mapNewer o o' es ho'⟩

/-- Witness for C4: the round trip at offset 7 across the insertion of "y"
at offset 5. -/
theorem c4_witness :
    ∃ o', mapOffsetToNewerSnapshot 7 [⟨5, 0, "y"⟩] = some o' ∧
      mapOffsetToOlderSnapshot o' [⟨5, 0, "y"⟩] = some 7 :=
  c4_remap_round_trip 7 [⟨5, 0, "y"⟩] (by decide)

theorem mappedBackOffset_skip (off : Nat) (isnap : SnapInfo)
    (editsFrom : SnapInfo → List Edit) (tokenAt : SnapInfo → Nat → String)
    (pre l : List SnapInfo) (hpre : ∀ p ∈ pre, p.buffer ≠ isnap.buffer) :
    mappedBackOffset off isnap editsFrom tokenAt (pre ++ l) =
      mappedBackOffset off isnap editsFrom tokenAt l := by
  induction pre with
  | nil => rfl
  | cons p ps ih =>
    have hp : p.buffer ≠ isnap.buffer := hpre p (List.mem_cons_self p ps)
    show mappedBackOffset off isnap editsFrom tokenAt (p :: (ps ++ l)) = _
    simp only [mappedBackOffset]
    rw [if_neg hp]
    exact ih (fun q hq => hpre q (List.mem_cons_of_mem p hq))

theorem canUse_cases (off : Nat) (isnapOpt : Option SnapInfo)
    (snaps : List SnapInfo) (ef : SnapInfo → List Edit)
    (tk : SnapInfo → Nat → String) :
    (∃ o', canUseASTWithSnapshots true off isnapOpt snaps ef tk =
        (true, o', snaps) ∧ snaps ≠ []) ∨
      canUseASTWithSnapshots true off isnapOpt snaps ef tk = (false, off, []) := by
  unfold canUseASTWithSnapshots
  cases isnapOpt with
  | none => right; rfl
  | some isnap =>
    cases hmb : mappedBackOffset off isnap ef tk snaps with
    | none => right; simp [hmb]
    | some x =>
      left
      refine ⟨x, by simp [hmb], ?_⟩
      intro hnil
      subst hnil
      simp [mappedBackOffset] at hmb

theorem canUse_accepted (off o' : Nat) (isnapOpt : Option SnapInfo)
    (snaps prev : List SnapInfo) (ef : SnapInfo → List Edit)
    (tk : SnapInfo → Nat → String)
    (h : canUseASTWithSnapshots true off isnapOpt snaps ef tk =
      (true, o', prev)) :
    prev = snaps ∧ snaps ≠ [] := by
  rcases canUse_cases off isnapOpt snaps ef tk with ⟨x, hx, hne⟩ | hrej
  · rw [h] at hx
    have := (Prod.mk.injEq _ _ _ _).mp hx
    have h2 := (Prod.mk.injEq _ _ _ _).mp this.2
    exact ⟨h2.2, hne⟩
  · rw [h] at hrej
    have := (Prod.mk.injEq _ _ _ _).mp hrej
    exact absurd this.1 (by decide)

theorem resolveCursorFresh_stats (env : PipelineEnv) (off : Nat) :
    (resolveCursorFresh env off).rounds = 1 ∧
      (resolveCursorFresh env off).freshBuilds = 1 := by
  unfold resolveCursorFresh
  cases handlePrimaryAST env off [] <;> simp

/-- Claim C5: during staleness negotiation, when the candidate snapshot (the
first analysis snapshot from the same buffer as the latest snapshot) has a
different stamp, the backward offset remap succeeds, but the lexical token
text at the offset in the latest snapshot differs from the token text at the
remapped offset in the candidate snapshot — or either token text is empty —
`canUseASTWithSnapshots` rejects the existing analysis (returns `false` with
no recorded snapshots), so the query falls through to a fresh build. -/
theorem c5_token_mismatch_rejects (off : Nat) (isnap s : SnapInfo)
    (pre rest : List SnapInfo) (editsFrom : SnapInfo → List Edit)
    (tokenAt : SnapInfo → Nat → String) (oldOff : Nat)
    (hpre : ∀ p ∈ pre, p.buffer ≠ isnap.buffer)
    (hbuf : s.buffer = isnap.buffer)
    (hstamp : s.stamp ≠ isnap.stamp)
    (hremap : mapOffsetToOlderSnapshot off (editsFrom s) = some oldOff)
    (htok : tokenAt isnap off ≠ tokenAt s oldOff ∨ tokenAt isnap off = "" ∨
      tokenAt s oldOff = "") :
    canUseASTWithSnapshots true off (some isnap) (pre ++ s :: rest)
      editsFrom tokenAt = (false, off, []) := by
  have hmb : mappedBackOffset off isnap editsFrom tokenAt (pre ++ s :: rest) =
      none := by
    rw [mappedBackOffset_skip off isnap editsFrom tokenAt pre (s :: rest) hpre]
    unfold mappedBackOffset
    rw [if_pos hbuf, if_neg hstamp]
    simp only [hremap]
    by_cases hemp : tokenAt isnap off = ""
    · rw [if_pos hemp]
    · rw [if_neg hemp]
      have hne : tokenAt isnap off ≠ tokenAt s oldOff := by
        rcases htok with h | h | h
        · exact h
        · exact absurd h hemp
        · intro heq
          rw [h] at heq
          exact hemp heq
      rw [if_neg hne]
  unfold canUseASTWithSnapshots
  simp [hmb]

/-- Witness for C5: candidate snapshot (buffer 0, stamp 1) differs in stamp
from the latest (buffer 0, stamp 2); with an empty edit chain the remap
succeeds trivially, but the token peek returns "a" in the latest snapshot
and "b" in the candidate, so reuse is rejected. -/
theorem c5_witness :
    canUseASTWithSnapshots true 3 (some ⟨0, 2⟩) [⟨1, 5⟩, ⟨0, 1⟩]
      (fun _ => []) (fun sn _ => if sn.stamp = 2 then "a" else "b") =
      (false, 3, []) :=
  c5_token_mismatch_rejects 3 ⟨0, 2⟩ ⟨0, 1⟩ [⟨1, 5⟩] [] (fun _ => [])
    (fun sn _ => if sn.stamp = 2 then "a" else "b") 3
    (by decide) rfl (by decide) rfl (Or.inl (by decide))

/-- Claim C6: if assembling the response for a resolved declaration fails
(`handlePrimaryAST` delivers nothing) and the negotiator had accepted a
stale analysis (`canUseASTWithSnapshots` returned `true`, so
`PreviousASTSnaps` is nonempty), the entire pipeline re-runs exactly once
with reuse disabled (`resolveCursor ... false`, itself a single round); if
assembly fails after a rejected negotiation (`PreviousASTSnaps` empty), the
query ends with the empty result in a single round, with no retry. -/
theorem c6_retry_policy (env : PipelineEnv) (off o' : Nat)
    (prev : List SnapInfo) :
    (canUseASTWithSnapshots true off env.inputSnap env.snapshots
        env.editsFrom env.tokenAt = (true, o', prev) →
      handlePrimaryAST env o' prev = none →
      resolveCursor env off true =
        ⟨(resolveCursor env o' false).outcome,
          1 + (resolveCursor env o' false).rounds,
          (resolveCursor env o' false).freshBuilds⟩ ∧
        (resolveCursor env o' false).rounds = 1) ∧
    (canUseASTWithSnapshots true off env.inputSnap env.snapshots
        env.editsFrom env.tokenAt = (false, off, []) →
      handlePrimaryAST env off [] = none →
      resolveCursor env off true = ⟨.empty, 1, 1⟩) := by
  constructor
  · intro hacc hfail
    obtain ⟨hprev, hne⟩ :=
      canUse_accepted off o' env.inputSnap env.snapshots prev env.editsFrom
        env.tokenAt hacc
    have hprevne : prev ≠ [] := by rw [hprev]; exact hne
    obtain ⟨p, ps, hps⟩ : ∃ p ps, prev = p :: ps := by
      cases prev with
      | nil => exact absurd rfl hprevne
      | cons p ps => exact ⟨p, ps, rfl⟩
    rw [hps] at hacc hfail
    constructor
    · simp only [resolveCursor, hacc, hfail]
      simp [resolveCursorFresh]
    · have := resolveCursorFresh_stats env o'
      simp only [resolveCursor]
      exact this.1
  · intro hrej hfail
    simp only [resolveCursor, hrej]
    simp [hfail]

/-- Witness for C6: in `staleUnavailableEnv` negotiation accepts a stale
analysis and assembly fails, so the pipeline re-runs once with reuse
disabled; in `freshRejectEnv` negotiation rejects and assembly fails, so the
query ends empty after a single round. -/
theorem c6_witness :
    (resolveCursor staleUnavailableEnv 4 true =
        ⟨(resolveCursor staleUnavailableEnv 4 false).outcome,
          1 + (resolveCursor staleUnavailableEnv 4 false).rounds,
          (resolveCursor staleUnavailableEnv 4 false).freshBuilds⟩ ∧
      (resolveCursor staleUnavailableEnv 4 false).rounds = 1) ∧
    resolveCursor freshRejectEnv 4 true = ⟨.empty, 1, 1⟩ :=
  ⟨(c6_retry_policy staleUnavailableEnv 4 4 [⟨0, 2⟩]).1 rfl rfl,
   (c6_retry_policy freshRejectEnv 4 4 []).2 rfl rfl⟩

/-- Claim C7: a cursor-info query whose offset resolves (on every attempt)
to a declaration marked unavailable ends with the empty result, and no
analysis build is triggered beyond the first one used to resolve it: the
whole run performs exactly one fresh build (if negotiation accepted a stale
analysis, the failed attempt reused it without building, and the single
fresh build is the retry; otherwise the single fresh build is the first and
only round). -/
theorem c7_unavailable_decl_empty (env : PipelineEnv) (off : Nat)
    (d : DeclInput) (hsema : ∀ o, env.sema o = .declTok d)
    (hunavail : d.unavailable = true) :
    (resolveCursor env off true).outcome = .empty ∧
      (resolveCursor env off true).freshBuilds = 1 := by
  have hpass : ∀ prev, passCursorInfoForDecl d prev = none := by
    intro prev
    unfold passCursorInfoForDecl
    rw [if_pos hunavail]
  have hhandle : ∀ o prev, handlePrimaryAST env o prev = none := by
    intro o prev
    unfold handlePrimaryAST
    rw [hsema o]
    simp [hpass]
  rcases canUse_cases off env.inputSnap env.snapshots env.editsFrom
      env.tokenAt with ⟨o', hacc, hne⟩ | hrej
  · obtain ⟨p, ps, hps⟩ : ∃ p ps, env.snapshots = p :: ps := by
      cases hsn : env.snapshots with
      | nil => exact absurd hsn hne
      | cons p ps => exact ⟨p, ps, rfl⟩
    simp only [resolveCursor, hacc, hhandle]
    rw [hps]
    simp [resolveCursorFresh, hhandle]
  · simp only [resolveCursor, hrej, hhandle]
    simp

/-- Witness for C7: in `staleUnavailableEnv` the query resolves to an
unavailable declaration on both rounds; the outcome is empty and exactly one
fresh build happens. -/
theorem c7_witness :
    (resolveCursor staleUnavailableEnv 4 true).outcome = .empty ∧
      (resolveCursor staleUnavailableEnv 4 true).freshBuilds = 1 :=
  c7_unavailable_decl_empty staleUnavailableEnv 4 ⟨true, none, none, fun _ => []⟩
    (fun _ => rfl) rfl

theorem remapRange_skip (latest : SnapInfo) (range : Nat × Nat)
    (ed : SnapInfo → List Edit) (pre l : List SnapInfo)
    (hpre : ∀ p ∈ pre, p.buffer ≠ latest.buffer) :
    remapRangeOverPrevSnaps latest range ed (pre ++ l) =
      remapRangeOverPrevSnaps latest range ed l := by
  induction pre with
  | nil => rfl
  | cons p ps ih =>
    have hp : p.buffer ≠ latest.buffer := hpre p (List.mem_cons_self p ps)
    show remapRangeOverPrevSnaps latest range ed (p :: (ps ++ l)) = _
    simp only [remapRangeOverPrevSnaps]
    rw [if_neg hp]
    exact ih (fun q hq => hpre q (List.mem_cons_of_mem p hq))

/-- Claim C8: when the resolved declaration reports a source location and a
previous analysis snapshot from the declaration file's buffer exists with a
stamp differing from the latest snapshot's, `passCursorInfoForDecl` forward
remaps both ends of the location range; if either end fails to remap, the
whole resolution fails (`none`: the receiver is never invoked, no partially
remapped response exists), and if both ends remap, the response carries
exactly the remapped pair. -/
theorem c8_loc_remap_failure (d : DeclInput) (range : Nat × Nat)
    (latest s : SnapInfo) (pre rest : List SnapInfo) (b e : Nat)
    (hun : d.unavailable = false) (hloc : d.declLoc = some range)
    (hlatest : d.latestSnap = some latest)
    (hpre : ∀ p ∈ pre, p.buffer ≠ latest.buffer)
    (hbuf : s.buffer = latest.buffer) (hstamp : s.stamp ≠ latest.stamp) :
    ((mapOffsetToNewerSnapshot range.1 (d.editsToLatest s) = none ∨
        mapOffsetToNewerSnapshot (range.1 + range.2) (d.editsToLatest s) = none) →
      passCursorInfoForDecl d (pre ++ s :: rest) = none) ∧
    (mapOffsetToNewerSnapshot range.1 (d.editsToLatest s) = some b →
      mapOffsetToNewerSnapshot (range.1 + range.2) (d.editsToLatest s) = some e →
      passCursorInfoForDecl d (pre ++ s :: rest) = some (some (b, e - b))) := by
  have hbase : tryRemappingLocToLatestSnapshot d.latestSnap range
      (pre ++ s :: rest) d.editsToLatest =
      (match mapOffsetToNewerSnapshot range.1 (d.editsToLatest s),
          mapOffsetToNewerSnapshot (range.1 + range.2) (d.editsToLatest s) with
        | some b', some e' => some (b', e' - b')
        | _, _ => none) := by
    rw [hlatest]
    simp only [tryRemappingLocToLatestSnapshot]
    rw [remapRange_skip latest range d.editsToLatest pre (s :: rest) hpre]
    simp only [remapRangeOverPrevSnaps]
    rw [if_pos hbuf, if_neg hstamp]
  constructor
  · intro hends
    cases hm1 : mapOffsetToNewerSnapshot range.1 (d.editsToLatest s) with
    | none => simp [passCursorInfoForDecl, hun, hloc, hbase, hm1]
    | some b' =>
      rcases hends with h | h
      · rw [hm1] at h
        exact absurd h (by simp)
      · simp [passCursorInfoForDecl, hun, hloc, hbase, hm1, h]
  · intro h1 h2
    simp [passCursorInfoForDecl, hun, hloc, hbase, h1, h2]

/-- Witness for C8: with latest snapshot (buffer 0, stamp 3) and previous
snapshot (buffer 0, stamp 1) behind an unrelated-buffer snapshot, an edit
chain removing five bytes at offset 0 makes the remap of range (1, 2) fail,
so assembly fails; an edit chain inserting "ab" at offset 0 remaps the range
to (3, 2). -/
theorem c8_witness :
    passCursorInfoForDecl ⟨false, some (1, 2), some ⟨0, 3⟩,
        fun _ => [⟨0, 5, ""⟩]⟩ [⟨7, 9⟩, ⟨0, 1⟩] = none ∧
    passCursorInfoForDecl ⟨false, some (1, 2), some ⟨0, 3⟩,
        fun _ => [⟨0, 0, "ab"⟩]⟩ [⟨7, 9⟩, ⟨0, 1⟩] = some (some (3, 2)) := by
  constructor
  · exact (c8_loc_remap_failure ⟨false, some (1, 2), some ⟨0, 3⟩,
      fun _ => [⟨0, 5, ""⟩]⟩ (1, 2) ⟨0, 3⟩ ⟨0, 1⟩ [⟨7, 9⟩] [] 0 0
      rfl rfl rfl (by decide) rfl (by decide)).1 (Or.inl (by decide))
  · exact (c8_loc_remap_failure ⟨false, some (1, 2), some ⟨0, 3⟩,
      fun _ => [⟨0, 0, "ab"⟩]⟩ (1, 2) ⟨0, 3⟩ ⟨0, 1⟩ [⟨7, 9⟩] [] 3 5
      rfl rfl rfl (by decide) rfl (by decide)).2 (by decide) (by decide)

/-- Claim C9: the related-identifier scanner returns an empty occurrence set
whenever the query offset was inside a keyword-argument label, or the target
is a constructor, destructor, or subscript and the offset was not itself a
reference occurrence, or the target's name is an operator; otherwise it
walks the innermost local context when the declaration is local and the
whole file otherwise. -/
theorem c9_related_id_entry_checks (locValid : Bool) (tok : SemaTokModel)
    (walkLocalRanges walkFileRanges : List (Nat × Nat)) (vd : RelDecl) :
    (tok.isKeywordArgument = true →
      findRelatedIdents locValid tok walkLocalRanges walkFileRanges = []) ∧
    (semaTokTargetDecl tok = some vd → tok.isRef = false →
      (vd.kind = .ctor ∨ vd.kind = .dtor ∨ vd.kind = .subscriptDecl) →
      findRelatedIdents locValid tok walkLocalRanges walkFileRanges = []) ∧
    (semaTokTargetDecl tok = some vd → vd.nameIsOperator = true →
      findRelatedIdents locValid tok walkLocalRanges walkFileRanges = []) ∧
    (locValid = true → tok.isInvalid = false → tok.isKeywordArgument = false →
      semaTokTargetDecl tok = some vd →
      ¬(tok.isRef = false ∧ (vd.kind = .ctor ∨ vd.kind = .dtor ∨
        vd.kind = .subscriptDecl)) →
      vd.nameIsOperator = false →
      findRelatedIdents locValid tok walkLocalRanges walkFileRanges =
        (if vd.isLocal then walkLocalRanges else walkFileRanges)) := by
  refine ⟨?_, ?_, ?_, ?_⟩
  · intro hk
    simp [findRelatedIdents, hk]
  · intro htd hr hkind
    rcases hkind with hkd | hkd | hkd <;>
      simp [findRelatedIdents, htd, hr, hkd]
  · intro htd hop
    by_cases hc : tok.isRef = false ∧ (vd.kind = .ctor ∨ vd.kind = .dtor ∨
        vd.kind = .subscriptDecl)
    · obtain ⟨hr, hkd⟩ := hc
      rcases hkd with hkd | hkd | hkd <;>
        simp [findRelatedIdents, htd, hr, hkd]
    · simp [findRelatedIdents, htd, hop, hc]
  · intro hl hinv hk htd hexcl hop
    simp [findRelatedIdents, hl, hinv, hk, htd, hexcl, hop]

/-- Witness for C9: a keyword-argument token yields no occurrences; an
ordinary local variable reference walks the local-context occurrence
list. -/
theorem c9_witness :
    findRelatedIdents true ⟨false, true, false, some ⟨.otherDecl, false, false⟩,
        none⟩ [(1, 2)] [(3, 4)] = [] ∧
    findRelatedIdents true ⟨false, false, true, some ⟨.otherDecl, false, true⟩,
        none⟩ [(1, 2)] [(3, 4)] = [(1, 2)] :=
  ⟨(c9_related_id_entry_checks true ⟨false, true, false,
      some ⟨.otherDecl, false, false⟩, none⟩ [(1, 2)] [(3, 4)]
      ⟨.otherDecl, false, false⟩).1 rfl,
   (c9_related_id_entry_checks true ⟨false, false, true,
      some ⟨.otherDecl, false, true⟩, none⟩ [(1, 2)] [(3, 4)]
      ⟨.otherDecl, false, true⟩).2.2.2 rfl rfl rfl rfl (by decide) rfl⟩

theorem remapRange_all_diff (latest : SnapInfo) (range : Nat × Nat)
    (ed : SnapInfo → List Edit) (l : List SnapInfo)
    (h : ∀ p ∈ l, p.buffer ≠ latest.buffer) :
    remapRangeOverPrevSnaps latest range ed l = some range := by
  induction l with
  | nil => rfl
  | cons p ps ih =>
    simp only [remapRangeOverPrevSnaps]
    rw [if_neg (h p (List.mem_cons_self p ps))]
    exact ih (fun q hq => h q (List.mem_cons_of_mem p hq))

theorem remapRange_none_inv (latest : SnapInfo) (range : Nat × Nat)
    (ed : SnapInfo → List Edit) (l : List SnapInfo)
    (h : remapRangeOverPrevSnaps latest range ed l = none) :
    ∃ pre s rest, l = pre ++ s :: rest ∧
      (∀ p ∈ pre, p.buffer ≠ latest.buffer) ∧
      s.buffer = latest.buffer ∧ s.stamp ≠ latest.stamp ∧
      (mapOffsetToNewerSnapshot range.1 (ed s) = none ∨
        mapOffsetToNewerSnapshot (range.1 + range.2) (ed s) = none) := by
  induction l with
  | nil => exact absurd h (by simp [remapRangeOverPrevSnaps])
  | cons p ps ih =>
    by_cases hbuf : p.buffer = latest.buffer
    · by_cases hstamp : p.stamp = latest.stamp
      · exfalso
        simp only [remapRangeOverPrevSnaps] at h
        rw [if_pos hbuf, if_pos hstamp] at h
        exact Option.noConfusion h
      · refine ⟨[], p, ps, rfl, by simp, hbuf, hstamp, ?_⟩
        simp only [remapRangeOverPrevSnaps] at h
        rw [if_pos hbuf, if_neg hstamp] at h
        cases hm1 : mapOffsetToNewerSnapshot range.1 (ed p) with
        | none => exact Or.inl rfl
        | some b' =>
          cases hm2 : mapOffsetToNewerSnapshot (range.1 + range.2) (ed p) with
          | none => exact Or.inr rfl
          | some e' =>
            rw [hm1, hm2] at h
            exact absurd h (by simp)
    · simp only [remapRangeOverPrevSnaps] at h
      rw [if_neg hbuf] at h
      obtain ⟨pre, s, rest, heq, hpre, hsb, hss, hends⟩ := ih h
      refine ⟨p :: pre, s, rest, by rw [heq]; rfl, ?_, hsb, hss, hends⟩
      intro q hq
      rcases List.mem_cons.mp hq with hq | hq
      · rw [hq]; exact hbuf
      · exact hpre q hq

/-- Claim C10: if the declaration's file has no latest snapshot, or no
previous analysis snapshot shares its buffer, remapping a declaration
location returns the input range unchanged; a failure can only arise when
the first same-buffer previous snapshot has a different stamp and one of the
two endpoint forward remaps fails. -/
theorem c10_remap_default_and_failure (latestSnapOpt : Option SnapInfo)
    (range : Nat × Nat) (prevSnaps : List SnapInfo)
    (editsToLatest : SnapInfo → List Edit) :
    (latestSnapOpt = none →
      tryRemappingLocToLatestSnapshot latestSnapOpt range prevSnaps
        editsToLatest = some range) ∧
    (∀ latest, latestSnapOpt = some latest →
      (∀ s ∈ prevSnaps, s.buffer ≠ latest.buffer) →
      tryRemappingLocToLatestSnapshot latestSnapOpt range prevSnaps
        editsToLatest = some range) ∧
    (tryRemappingLocToLatestSnapshot latestSnapOpt range prevSnaps
        editsToLatest = none →
      ∃ latest pre s rest, latestSnapOpt = some latest ∧
        prevSnaps = pre ++ s :: rest ∧
        (∀ p ∈ pre, p.buffer ≠ latest.buffer) ∧
        s.buffer = latest.buffer ∧ s.stamp ≠ latest.stamp ∧
        (mapOffsetToNewerSnapshot range.1 (editsToLatest s) = none ∨
          mapOffsetToNewerSnapshot (range.1 + range.2) (editsToLatest s) =
            none)) := by
  refine ⟨?_, ?_, ?_⟩
  · intro h
    rw [h]
    rfl
  · intro latest hl hdiff
    rw [hl]
    simp only [tryRemappingLocToLatestSnapshot]
    exact remapRange_all_diff latest range editsToLatest prevSnaps hdiff
  · intro hnone
    cases hls : latestSnapOpt with
    | none =>
      rw [hls] at hnone
      exact absurd hnone (by simp [tryRemappingLocToLatestSnapshot])
    | some latest =>
      rw [hls] at hnone
      simp only [tryRemappingLocToLatestSnapshot] at hnone
      obtain ⟨pre, s, rest, heq, hpre, hsb, hss, hends⟩ :=
        remapRange_none_inv latest range editsToLatest prevSnaps hnone
      exact ⟨latest, pre, s, rest, rfl, heq, hpre, hsb, hss, hends⟩

/-- Witness for C10: no latest snapshot returns the range unchanged; a
previous snapshot from another buffer returns the range unchanged; a
same-buffer previous snapshot with a different stamp whose edit chain
removed the range's text makes the remap fail, exhibiting the failure
shape. -/
theorem c10_witness :
    tryRemappingLocToLatestSnapshot none (3, 2) [⟨0, 0⟩] noEdits = some (3, 2) ∧
    tryRemappingLocToLatestSnapshot (some ⟨0, 5⟩) (3, 2) [⟨1, 0⟩] noEdits =
      some (3, 2) ∧
    (∃ latest pre s rest, (some (⟨0, 5⟩ : SnapInfo)) = some latest ∧
      ([⟨0, 1⟩] : List SnapInfo) = pre ++ s :: rest ∧
      (∀ p ∈ pre, p.buffer ≠ latest.buffer) ∧
      s.buffer = latest.buffer ∧ s.stamp ≠ latest.stamp ∧
      (mapOffsetToNewerSnapshot 1 (removeFiveAtZero s) = none ∨
        mapOffsetToNewerSnapshot (1 + 2) (removeFiveAtZero s) = none)) :=
  ⟨(c10_remap_default_and_failure none (3, 2) [⟨0, 0⟩] noEdits).1 rfl,
   (c10_remap_default_and_failure (some ⟨0, 5⟩) (3, 2) [⟨1, 0⟩] noEdits).2.1
     ⟨0, 5⟩ rfl (by decide),
   (c10_remap_default_and_failure (some ⟨0, 5⟩) (1, 2) [⟨0, 1⟩]
     removeFiveAtZero).2.2 rfl⟩

end SwiftSourceDocInfo
